import Mathlib

/-!
# Group name locker: the Name Guard and its triggers

A shallow embedding of `src/index.js`.  The JavaScript module keeps three mutable
variables (`lastTitleCheck`, `resetTimeout`, `isProcessing`) and registers
callbacks with an external platform client and with the timer queue.  Every
callback body of the source becomes a pure function from the module state (and the
callback's arguments) to the new module state and the list of calls it makes to
the outside (platform client, timers, console).  An explicit event loop
(`Sys`, `step`, `run`) holds the pending timers and pending platform calls and
feeds completions back into the callbacks.

The two module constants `GROUP_THREAD_ID` and `LOCKED_GROUP_NAME` are fields of a
`Config`, so every result holds for each pair of values, the source's included.
-/

namespace NameLocker

/-! ## JavaScript values and truthiness -/

/-- The JavaScript values that reach the guard: `undefined`/`null`, strings and
non-negative numbers (identifiers may arrive as either). -/
inductive JsVal where
  | undefined
  | str (s : String)
  | num (n : Nat)
  deriving DecidableEq, Repr

/-- JavaScript truthiness: `undefined`, `""` and `0` are falsy. -/
def JsVal.truthy : JsVal → Bool
  | .undefined => false
  | .str s => s != ""
  | .num n => n != 0

/-- The `a || b` operator of JavaScript on values. -/
def JsVal.or (a b : JsVal) : JsVal := if a.truthy then a else b

/-- The `.toString()` method, used only on truthy values in the source. -/
def JsVal.toStr : JsVal → String
  | .undefined => "undefined"
  | .str s => s
  | .num n => toString n

/-- The `String.prototype.includes` test on the characters of both strings. -/
def includes (s t : String) : Bool :=
  s.data.tails.any (fun r => t.data.isPrefixOf r)

/-- Truthiness of a field that is a string when it is there: a missing field and
the empty string are both falsy. -/
def truthyStr : Option String → Bool
  | none => false
  | some t => t != ""

/-- Truthiness of a millisecond timestamp read out of `lastTitleCheck`:
a missing entry and the number `0` are both falsy. -/
def truthyTime : Option Int → Bool
  | none => false
  | some t => t != 0

/-! ## Configuration and module state -/

/-- The module constants of lines 22-23. -/
structure Config where
  GROUP_THREAD_ID : String
  LOCKED_GROUP_NAME : String
  deriving DecidableEq, Repr

/-- The three module variables of lines 26-28.  `lastTitleCheck` is an object used
as a map from thread identifier to timestamp; `resetTimeout` is `null` or a timer
handle (handles are objects, hence truthy). -/
structure Guard where
  lastTitleCheck : List (String × Int)
  resetTimeout : Option Nat
  isProcessing : Bool
  deriving DecidableEq, Repr

/-- Property read `obj[key]` on the throttle map. -/
def getCheck (m : List (String × Int)) (key : String) : Option Int :=
  m.lookup key

/-- Property write `obj[key] = v` on the throttle map. -/
def setCheck (m : List (String × Int)) (key : String) (v : Int) : List (String × Int) :=
  (key, v) :: m.filter (fun p => p.1 != key)

/-- The thread info object handed to a `getThreadInfo` callback. -/
structure ThreadInfo where
  name : JsVal
  threadName : JsVal
  deriving DecidableEq, Repr

/-- The arguments `(err, info)` of a `getThreadInfo` callback: a truthy `err`, or
no error and an `info` that may be `null`. -/
inductive ReadResult where
  | failure
  | success (info : Option ThreadInfo)
  deriving DecidableEq, Repr

/-- The expression `info?.name || info?.threadName || "Unknown"` of lines 87
and 109. -/
def currentNameOf (info : Option ThreadInfo) : JsVal :=
  let name := match info with | some i => i.name | none => JsVal.undefined
  let threadName := match info with | some i => i.threadName | none => JsVal.undefined
  (name.or threadName).or (JsVal.str "Unknown")

/-! ## Calls to the outside -/

/-- Console messages, one constructor per `console.*` call of the source. -/
inductive LogMsg where
  | alreadyProcessing
  | skippingCheck (timeSinceLastCheck : Int)
  | fetchError
  | nameChanged (currentName : JsVal)
  | alreadyLocked
  | verifyError
  | resetting (verifiedName : JsVal)
  | safeSetTitleFailed (title threadID : String)
  | titleSet (title threadID : String)
  | resetSucceeded
  | alreadyCorrected
  | eventDetected
  | listenError
  deriving DecidableEq, Repr

/-- Which callback a timer runs when it fires. -/
inductive TimerKind where
  | correction
  | settle
  | poll
  deriving DecidableEq, Repr

/-- Which callback a `getThreadInfo` call was given: the one of line 81 or the one
of line 102. -/
inductive ReadKind where
  | evalRead
  | verifyRead
  deriving DecidableEq, Repr

/-- The calls a callback body makes to the platform client, the timer queue and
the console, in program order. -/
inductive Action where
  | log (m : LogMsg)
  | getThreadInfo (threadID : String) (k : ReadKind)
  | setTitle (title threadID : String)
  | setTimeout (handle : Nat) (delay : Nat) (k : TimerKind)
  | clearTimeout (handle : Nat)
  deriving DecidableEq, Repr

/-- The `(title, threadID)` pairs of the `setTitle` calls in a list of actions. -/
def writesOf : List Action → List (String × String)
  | [] => []
  | .setTitle title threadID :: rest => (title, threadID) :: writesOf rest
  | _ :: rest => writesOf rest

/-- The thread identifiers of the `getThreadInfo` calls in a list of actions. -/
def readsOf : List Action → List String
  | [] => []
  | .getThreadInfo threadID _ :: rest => threadID :: readsOf rest
  | _ :: rest => readsOf rest

/-- The `(handle, delay, kind)` triples of the `setTimeout` calls in a list of
actions. -/
def timersOf : List Action → List (Nat × Nat × TimerKind)
  | [] => []
  | .setTimeout h d k :: rest => (h, d, k) :: timersOf rest
  | _ :: rest => timersOf rest

/-- The handles of the `clearTimeout` calls in a list of actions. -/
def clearsOf : List Action → List Nat
  | [] => []
  | .clearTimeout h :: rest => h :: clearsOf rest
  | _ :: rest => clearsOf rest

/-! ## Callback bodies of `checkAndResetTitle` and `safeSetTitle` -/

/-- The function `safeSetTitle` up to the call of `api.setTitle` (lines 43-44). -/
def safeSetTitle (title threadID : String) : List Action :=
  [Action.setTitle title threadID]

/-- The callback `safeSetTitle` passes to `api.setTitle` (lines 44-55), with the
continuation `cb` of lines 113-118 inlined: `cb` is a function at its only call
site, so both branches call it. -/
def setTitleCallback (g : Guard) (title threadID : String) (err : Bool) :
    Guard × List Action :=
  if err then
    ({ g with isProcessing := false }, [Action.log (LogMsg.safeSetTitleFailed title threadID)])
  else
    ({ g with isProcessing := false },
      [Action.log (LogMsg.titleSet title threadID), Action.log LogMsg.resetSucceeded])

/-- The body of `checkAndResetTitle` up to the call of `api.getThreadInfo`
(lines 61-81); `now` is the value of `Date.now()`.  The inner `Option` is the
early return of line 74 with the elapsed time it logs. -/
def checkAndResetTitle (cfg : Config) (g : Guard) (now : Int) (forceCheck : Bool) :
    Guard × List Action :=
  if g.isProcessing then
    (g, [Action.log LogMsg.alreadyProcessing])
  else
    let last := getCheck g.lastTitleCheck cfg.GROUP_THREAD_ID
    let skip : Option Int :=
      if !forceCheck && truthyTime last then
        let timeSinceLastCheck := now - last.getD 0
        if timeSinceLastCheck < 2000 then some timeSinceLastCheck else none
      else none
    match skip with
    | some timeSinceLastCheck => (g, [Action.log (LogMsg.skippingCheck timeSinceLastCheck)])
    | none =>
      ({ g with lastTitleCheck := setCheck g.lastTitleCheck cfg.GROUP_THREAD_ID now },
        [Action.getThreadInfo cfg.GROUP_THREAD_ID ReadKind.evalRead])

/-- The callback of the first `getThreadInfo` (lines 81-128) up to the call of
`setTimeout`; `fresh` is the handle `setTimeout` returns. -/
def evalReadCallback (cfg : Config) (g : Guard) (fresh : Nat) :
    ReadResult → Guard × List Action
  | .failure => (g, [Action.log LogMsg.fetchError])
  | .success info =>
    let currentName := currentNameOf info
    if currentName ≠ JsVal.str cfg.LOCKED_GROUP_NAME then
      let clear := match g.resetTimeout with
        | some h => [Action.clearTimeout h]
        | none => []
      ({ g with resetTimeout := some fresh },
        [Action.log (LogMsg.nameChanged currentName)] ++ clear ++
          [Action.setTimeout fresh 2000 TimerKind.correction])
    else
      (g, [Action.log LogMsg.alreadyLocked])

/-- The timer callback of lines 98-102, up to the call of `api.getThreadInfo`. -/
def correctionTimer (cfg : Config) (g : Guard) : Guard × List Action :=
  ({ g with isProcessing := true },
    [Action.getThreadInfo cfg.GROUP_THREAD_ID ReadKind.verifyRead])

/-- The callback of the second `getThreadInfo` (lines 102-123). -/
def verifyReadCallback (cfg : Config) (g : Guard) : ReadResult → Guard × List Action
  | .failure => ({ g with isProcessing := false }, [Action.log LogMsg.verifyError])
  | .success info2 =>
    let verifiedName := currentNameOf info2
    if verifiedName ≠ JsVal.str cfg.LOCKED_GROUP_NAME then
      (g, [Action.log (LogMsg.resetting verifiedName)] ++
        safeSetTitle cfg.LOCKED_GROUP_NAME cfg.GROUP_THREAD_ID)
    else
      ({ g with isProcessing := false }, [Action.log LogMsg.alreadyCorrected])

/-! ## Triggers: event listener and polling fallback -/

/-- The field `logMessageData` of an event, as far as the source reads it. -/
structure LogMessageData where
  threadID : JsVal
  threadId : JsVal
  deriving DecidableEq, Repr

/-- An event delivered by `listenMqtt`, as far as the source reads it.  The
category tag `logMessageType` is a string when it is there, so the `.toString()`
of line 164 returns it unchanged. -/
structure Event where
  type : JsVal
  logMessageType : Option String
  threadID : JsVal
  logMessageData : Option LogMessageData
  deriving DecidableEq, Repr

/-- The expression `looksLikeTitleChange` of lines 165-170. -/
def looksLikeTitleChange (t : String) : Bool :=
  t == "log:thread-name" ||
  t == "log:thread-title" ||
  t == "log:thread-name-change" ||
  (includes t "thread" && includes t "name") ||
  (includes t "thread" && includes t "title")

/-- The expression `threadId` of lines 173-176. -/
def eventThreadId (event : Event) : JsVal :=
  let viaID := match event.logMessageData with | some d => d.threadID | none => JsVal.undefined
  let viaId := match event.logMessageData with | some d => d.threadId | none => JsVal.undefined
  (event.threadID.or viaID).or viaId

/-- The callback given to `api.listenMqtt` (lines 160-189); `fresh` is the handle
`setTimeout` returns.  The callback touches no module variable. -/
def listenCallback (cfg : Config) (fresh : Nat) (err : Bool) (event : Option Event) :
    List Action :=
  if err then [Action.log LogMsg.listenError]
  else
    match event with
    | none => []
    | some event =>
      if event.type = JsVal.str "event" && truthyStr event.logMessageType then
        let t := event.logMessageType.getD ""
        if looksLikeTitleChange t then
          let threadId := eventThreadId event
          if threadId.truthy && threadId.toStr == cfg.GROUP_THREAD_ID then
            [Action.log LogMsg.eventDetected, Action.setTimeout fresh 500 TimerKind.settle]
          else []
        else []
      else []

/-- The function `loop` of `startPollingFallback` (lines 137-143); `stopped` is
the closure variable of line 135. -/
def pollLoop (cfg : Config) (g : Guard) (stopped : Bool) (now : Int) (fresh : Nat)
    (pollIntervalMs : Nat) : Guard × List Action :=
  if stopped then (g, [])
  else
    let r := checkAndResetTitle cfg g now false
    (r.1, r.2 ++ [Action.setTimeout fresh pollIntervalMs TimerKind.poll])

/-- The timer calls of the stop function returned by `startPollingFallback`
(lines 147-152); it also sets `stopped`. -/
def stopPolling (g : Guard) : List Action :=
  match g.resetTimeout with
  | some h => [Action.clearTimeout h]
  | none => []

/-! ## The event loop -/

/-- A timer waiting in the timer queue. -/
structure Timer where
  handle : Nat
  due : Int
  kind : TimerKind
  deriving DecidableEq, Repr

/-- The callback a pending platform call will run. -/
inductive CallKind where
  | evalRead
  | verifyRead
  | write (title threadID : String)
  deriving DecidableEq, Repr

/-- A platform call whose callback has not run yet. -/
structure Call where
  id : Nat
  kind : CallKind
  deriving DecidableEq, Repr

/-- The module state together with the timer queue, the outstanding platform calls
and the history of all calls made so far. -/
structure Sys where
  g : Guard
  stopped : Bool
  timers : List Timer
  calls : List Call
  nextTimer : Nat
  nextCall : Nat
  trace : List Action
  deriving DecidableEq, Repr

/-- The callback kind registered by a read. -/
def ReadKind.toCall : ReadKind → CallKind
  | .evalRead => CallKind.evalRead
  | .verifyRead => CallKind.verifyRead

/-- Carry out one call to the outside at time `now` and record it. -/
def exec (now : Int) (s : Sys) (a : Action) : Sys :=
  let s := { s with trace := s.trace ++ [a] }
  match a with
  | .log _ => s
  | .getThreadInfo _ k =>
    { s with calls := s.calls ++ [⟨s.nextCall, k.toCall⟩], nextCall := s.nextCall + 1 }
  | .setTitle title threadID =>
    { s with calls := s.calls ++ [⟨s.nextCall, CallKind.write title threadID⟩],
             nextCall := s.nextCall + 1 }
  | .setTimeout h d k =>
    { s with timers := s.timers ++ [⟨h, now + d, k⟩], nextTimer := h + 1 }
  | .clearTimeout h =>
    { s with timers := s.timers.filter (fun t => t.handle != h) }

/-- Install the module state a callback returns and carry out its calls. -/
def commit (now : Int) (s : Sys) (r : Guard × List Action) : Sys :=
  r.2.foldl (exec now) { s with g := r.1 }

/-- What the environment can make happen. -/
inductive Ev where
  | evaluate (forceCheck : Bool)
  | mqtt (err : Bool) (event : Option Event)
  | timerFire (handle : Nat)
  | readDone (id : Nat) (res : ReadResult)
  | writeDone (id : Nat) (err : Bool)
  | stop
  deriving DecidableEq, Repr

/-- One turn of the event loop at time `now`.  A timer that is not queued or a
call that is not outstanding cannot run a callback, so such events change
nothing. -/
def step (cfg : Config) (s : Sys) (now : Int) : Ev → Sys
  | .evaluate forceCheck => commit now s (checkAndResetTitle cfg s.g now forceCheck)
  | .mqtt err event => commit now s (s.g, listenCallback cfg s.nextTimer err event)
  | .timerFire h =>
    match s.timers.find? (fun t => t.handle == h) with
    | none => s
    | some t =>
      let s1 := { s with timers := s.timers.filter (fun t => t.handle != h) }
      match t.kind with
      | .correction => commit now s1 (correctionTimer cfg s1.g)
      | .settle => commit now s1 (checkAndResetTitle cfg s1.g now false)
      | .poll => commit now s1 (pollLoop cfg s1.g s1.stopped now s1.nextTimer 30000)
  | .readDone id res =>
    match s.calls.find? (fun c => c.id == id) with
    | none => s
    | some c =>
      let s1 := { s with calls := s.calls.filter (fun c => c.id != id) }
      match c.kind with
      | .evalRead => commit now s1 (evalReadCallback cfg s1.g s1.nextTimer res)
      | .verifyRead => commit now s1 (verifyReadCallback cfg s1.g res)
      | .write _ _ => s
  | .writeDone id err =>
    match s.calls.find? (fun c => c.id == id) with
    | none => s
    | some c =>
      let s1 := { s with calls := s.calls.filter (fun c => c.id != id) }
      match c.kind with
      | .write title threadID => commit now s1 (setTitleCallback s1.g title threadID err)
      | _ => s
  | .stop => commit now { s with stopped := true } (s.g, stopPolling s.g)

/-- The module state at load time (lines 26-28), nothing queued. -/
def init : Sys :=
  { g := { lastTitleCheck := [], resetTimeout := none, isProcessing := false },
    stopped := false, timers := [], calls := [], nextTimer := 0, nextCall := 0, trace := [] }

/-- The login callback on success (lines 208-212): the forced check, then the
first turn of the polling loop. -/
def boot (cfg : Config) (now : Int) : Sys :=
  let s1 := commit now init (checkAndResetTitle cfg init.g now true)
  commit now s1 (pollLoop cfg s1.g s1.stopped now s1.nextTimer 30000)

/-- Run a list of timestamped events. -/
def run (cfg : Config) (s : Sys) : List (Int × Ev) → Sys
  | [] => s
  | (now, ev) :: rest => run cfg (step cfg s now ev) rest

/-- Whether the event can happen at time `now`: a timer fires only when queued and
due, a completion arrives only for an outstanding call of the right sort. -/
def enabled (s : Sys) (now : Int) : Ev → Bool
  | .evaluate _ => true
  | .mqtt _ _ => true
  | .timerFire h => s.timers.any (fun t => t.handle == h && decide (t.due ≤ now))
  | .readDone id _ =>
    s.calls.any (fun c => c.id == id && (c.kind == CallKind.evalRead || c.kind == CallKind.verifyRead))
  | .writeDone id _ =>
    s.calls.any (fun c => c.id == id && !(c.kind == CallKind.evalRead || c.kind == CallKind.verifyRead))
  | .stop => true

/-- Whether a list of timestamped events is a schedule the event loop can follow
from `s` when the clock reads `t0`: time never runs backwards and every event is
enabled when it happens. -/
def feasible (cfg : Config) (s : Sys) (t0 : Int) : List (Int × Ev) → Bool
  | [] => true
  | (now, ev) :: rest =>
    decide (t0 ≤ now) && enabled s now ev && feasible cfg (step cfg s now ev) now rest

/-- The number of corrections that have started (their timer fired) and whose
last callback has not run yet: each waits on its re-read or on its write. -/
def inFlight (s : Sys) : Nat :=
  (s.calls.filter (fun c => c.kind != CallKind.evalRead)).length

/-- The correction timers still queued. -/
def pendingCorrections (s : Sys) : List Timer :=
  s.timers.filter (fun t => t.kind == TimerKind.correction)

/-! ## Concrete inputs and the specification's wording -/

/-- A configuration for concrete runs: the thread identifier of the source and the
locked name of the specification's scenarios. -/
def sampleConfig : Config := ⟨"3779662075668749", "Locked"⟩

/-- A thread info whose name is "Hacked". -/
def hacked : ReadResult :=
  .success (some ⟨JsVal.str "Hacked", JsVal.str "Hacked"⟩)

/-- A name-change event for the configured thread of `sampleConfig`. -/
def renameEvent : Option Event :=
  some ⟨JsVal.str "event", some "log:thread-name", JsVal.str "3779662075668749", none⟩

/-- A schedule after a start at clock reading 1000.  The forced check's read
(call 0) returns "Hacked" at 1100 and queues correction timer 1, due at 3100.  A
rename event at 2550 queues settle timer 2, due at 3050; when it fires, 2050ms
after the forced check, the non-forced check is accepted and issues a read
(call 1).  Timer 1 fires at 3100 and the first correction starts its re-read
(call 2), which is slow.  Call 1 returns "Hacked" at 3150 and queues correction
timer 3, due at 5150.  Timer 3 fires at 5150. -/
def overlapSchedule : List (Int × Ev) :=
  [(1100, Ev.readDone 0 hacked),
   (2550, Ev.mqtt false renameEvent),
   (3050, Ev.timerFire 2),
   (3100, Ev.timerFire 1),
   (3150, Ev.readDone 1 hacked),
   (5150, Ev.timerFire 3)]

/-- The state after the first three events of `overlapSchedule`: correction timer 1
is queued, due at 3100, and the read of the second check (call 1) is outstanding. -/
def beforeCorrection : Sys :=
  run sampleConfig (boot sampleConfig 1000) (overlapSchedule.take 3)

/-- The schedule continued: both re-reads return "Hacked", then the first write
completes. -/
def overlapTail : List (Int × Ev) :=
  [(5400, Ev.readDone 2 hacked),
   (5450, Ev.readDone 3 hacked),
   (5600, Ev.writeDone 4 false)]

/-- The category test in the words of the specification: the category string
contains "thread" and also "name" or "title". -/
def denotesNameChange (t : String) : Bool :=
  includes t "thread" && (includes t "name" || includes t "title")

/-- The first present value of a list of fields, a field being present when
JavaScript takes its value for one: not `undefined`, not empty, not zero. -/
def firstPresent : List JsVal → Option JsVal
  | [] => none
  | v :: rest => if v.truthy then some v else firstPresent rest

/-- The identifier fields of an event in the order the specification lists them:
`event.threadID`, `logMessageData.threadID`, `logMessageData.threadId`. -/
def identifierFields (e : Event) : List JsVal :=
  match e.logMessageData with
  | some d => [e.threadID, d.threadID, d.threadId]
  | none => [e.threadID]

/-- The matching rule in the words of the specification: the event has type
"event", its category string denotes a thread name change, and its thread
identifier, as a string, equals the configured thread identifier. -/
def isGroupNameChange (cfg : Config) : Option Event → Bool
  | none => false
  | some e =>
    e.type == JsVal.str "event" &&
    (match e.logMessageType with
      | some t => denotesNameChange t
      | none => false) &&
    (match firstPresent (identifierFields e) with
      | some v => v.toStr == cfg.GROUP_THREAD_ID
      | none => false)

/-- Whether an event, if it is the completion of a read, reports the locked name. -/
def returnsLocked (cfg : Config) : Ev → Bool
  | .readDone _ (.success info) => currentNameOf info == JsVal.str cfg.LOCKED_GROUP_NAME
  | .readDone _ .failure => false
  | _ => true

/-! ## Invariants of the event loop -/

/-- An action that can occur while nothing has diverged: no write, no re-read, no
correction timer. -/
def Action.quiet : Action → Bool
  | .log _ => true
  | .getThreadInfo _ k => k == ReadKind.evalRead
  | .setTitle _ _ => false
  | .setTimeout _ _ k => k != TimerKind.correction
  | .clearTimeout _ => true

/-- An action that queues no correction timer. -/
def Action.calm : Action → Bool
  | .setTimeout _ _ k => k != TimerKind.correction
  | _ => true

/-- Every `setTimeout` of the list gets the next unused handle, counting from `n`. -/
def timersFresh : Nat → List Action → Bool
  | _, [] => true
  | n, .setTimeout h _ _ :: rest => h == n && timersFresh (n + 1) rest
  | n, _ :: rest => timersFresh n rest

/-- No correction is queued or in flight and nothing has been written. -/
def Quiet (s : Sys) : Prop :=
  (∀ t ∈ s.timers, t.kind ≠ TimerKind.correction) ∧
  (∀ c ∈ s.calls, c.kind = CallKind.evalRead) ∧
  writesOf s.trace = []

/-- Every queued correction timer is the one `resetTimeout` holds. -/
def Tracked (s : Sys) : Prop :=
  ∀ t ∈ s.timers, t.kind = TimerKind.correction → s.g.resetTimeout = some t.handle

/-- Every queued timer has a handle below the next one to be handed out. -/
def Fresh (s : Sys) : Prop :=
  ∀ t ∈ s.timers, t.handle < s.nextTimer

/-- Every outstanding call has an identifier below the next one to be handed out. -/
def CallsFresh (s : Sys) : Prop :=
  ∀ c ∈ s.calls, c.id < s.nextCall

/-! ## The correction: timer callback, re-read callback, write callback -/

/-- C1: when a scheduled correction fires and its re-read succeeds with a name
(the value of `info?.name || info?.threadName || "Unknown"`) different from the
locked name, the re-read callback issues exactly one `setTitle`, with the locked
name as title and the configured thread identifier as target; the timer callback
issues none, and the write callback, on success and on failure alike, issues no
write, no read and no timer, so nothing is retried. -/
theorem correction_issues_exactly_one_write (cfg : Config) (g1 g2 g3 : Guard)
    (info2 : Option ThreadInfo) (err : Bool)
    (hdiff : currentNameOf info2 ≠ JsVal.str cfg.LOCKED_GROUP_NAME) :
    writesOf ((correctionTimer cfg g1).2 ++ (verifyReadCallback cfg g2 (.success info2)).2 ++
        (setTitleCallback g3 cfg.LOCKED_GROUP_NAME cfg.GROUP_THREAD_ID err).2)
      = [(cfg.LOCKED_GROUP_NAME, cfg.GROUP_THREAD_ID)] ∧
    writesOf (verifyReadCallback cfg g2 (.success info2)).2
      = [(cfg.LOCKED_GROUP_NAME, cfg.GROUP_THREAD_ID)] ∧
    writesOf (setTitleCallback g3 cfg.LOCKED_GROUP_NAME cfg.GROUP_THREAD_ID err).2 = [] ∧
    readsOf (setTitleCallback g3 cfg.LOCKED_GROUP_NAME cfg.GROUP_THREAD_ID err).2 = [] ∧
    timersOf (setTitleCallback g3 cfg.LOCKED_GROUP_NAME cfg.GROUP_THREAD_ID err).2 = [] := by
  cases err <;>
    simp [correctionTimer, verifyReadCallback, setTitleCallback, safeSetTitle, hdiff,
      writesOf, readsOf, timersOf]

/-- The scenario of the specification: the re-read still shows "Hacked". -/
theorem correction_issues_exactly_one_write_witness :
    currentNameOf (some ⟨JsVal.str "Hacked", JsVal.undefined⟩)
        ≠ JsVal.str sampleConfig.LOCKED_GROUP_NAME ∧
    writesOf (verifyReadCallback sampleConfig ⟨[], some 1, true⟩
        (.success (some ⟨JsVal.str "Hacked", JsVal.undefined⟩))).2
      = [("Locked", "3779662075668749")] :=
  ⟨by decide,
   (correction_issues_exactly_one_write sampleConfig ⟨[], some 1, false⟩ ⟨[], some 1, true⟩
      ⟨[], some 1, true⟩ (some ⟨JsVal.str "Hacked", JsVal.undefined⟩) false (by decide)).2.1⟩

/-- C2: when a scheduled correction fires and its re-read succeeds with a name equal
to the locked name, the re-read callback issues no write (its only call is a console
message) and leaves `isProcessing` false, whatever the module state was. -/
theorem reverted_name_no_write (cfg : Config) (g g2 : Guard) (info2 : Option ThreadInfo)
    (hsame : currentNameOf info2 = JsVal.str cfg.LOCKED_GROUP_NAME) :
    verifyReadCallback cfg g2 (.success info2)
      = ({ g2 with isProcessing := false }, [Action.log LogMsg.alreadyCorrected]) ∧
    writesOf ((correctionTimer cfg g).2 ++ (verifyReadCallback cfg g2 (.success info2)).2) = [] ∧
    (verifyReadCallback cfg (correctionTimer cfg g).1 (.success info2)).1
      = { g with isProcessing := false } := by
  simp [correctionTimer, verifyReadCallback, hsame, writesOf]

/-- The scenario of the specification: the name was put back to "Locked" during the
delay. -/
theorem reverted_name_no_write_witness :
    currentNameOf (some ⟨JsVal.str "Locked", JsVal.str "Locked"⟩)
        = JsVal.str sampleConfig.LOCKED_GROUP_NAME ∧
    (verifyReadCallback sampleConfig (correctionTimer sampleConfig ⟨[], some 1, false⟩).1
        (.success (some ⟨JsVal.str "Locked", JsVal.str "Locked"⟩))).1
      = ⟨[], some 1, false⟩ :=
  ⟨by decide,
   (reverted_name_no_write sampleConfig ⟨[], some 1, false⟩ ⟨[], some 1, true⟩
      (some ⟨JsVal.str "Locked", JsVal.str "Locked"⟩) (by decide)).2.2⟩

/-! ## Acceptance of an evaluation: in-flight guard and throttle -/

/-- C3, as the source implements it: a non-forced call made while no correction is
in flight is a no-op when the recorded time of the last accepted check is non-zero
and less than 2000ms before `now`: it only writes a console message, so it issues
no read and schedules nothing, and the throttle map, the timer handle, the flag,
the timer queue and the outstanding calls stay as they were.  (Line 70 takes a
recorded time of 0 for no record.) -/
theorem throttle_skips_nonzero_timestamp (cfg : Config) (s : Sys) (now last : Int)
    (hidle : s.g.isProcessing = false)
    (hlast : getCheck s.g.lastTitleCheck cfg.GROUP_THREAD_ID = some last)
    (hnz : last ≠ 0) (hrecent : now - last < 2000) :
    checkAndResetTitle cfg s.g now false
      = (s.g, [Action.log (LogMsg.skippingCheck (now - last))]) ∧
    readsOf (checkAndResetTitle cfg s.g now false).2 = [] ∧
    timersOf (checkAndResetTitle cfg s.g now false).2 = [] ∧
    step cfg s now (Ev.evaluate false)
      = { s with trace := s.trace ++ [Action.log (LogMsg.skippingCheck (now - last))] } := by
  simp [checkAndResetTitle, hidle, hlast, truthyTime, hnz, hrecent, step, commit, exec,
    readsOf, timersOf]

/-- The scenario of the specification on a running clock: the forced check at
start is recorded at 1000 and a non-forced call comes 500ms later. -/
theorem throttle_skips_nonzero_timestamp_witness :
    (boot sampleConfig 1000).g.isProcessing = false ∧
    getCheck (boot sampleConfig 1000).g.lastTitleCheck sampleConfig.GROUP_THREAD_ID
      = some 1000 ∧
    ((1000 : Int) ≠ 0 ∧ (1500 : Int) - 1000 < 2000) ∧
    step sampleConfig (boot sampleConfig 1000) 1500 (Ev.evaluate false)
      = { boot sampleConfig 1000 with
          trace := (boot sampleConfig 1000).trace ++ [Action.log (LogMsg.skippingCheck 500)] } :=
  ⟨by decide, by decide, by decide,
   (throttle_skips_nonzero_timestamp sampleConfig (boot sampleConfig 1000) 1500 1000
      (by decide) (by decide) (by decide) (by decide)).2.2.2⟩

/-- C3 as stated fails at a recorded time of 0: a non-forced call accepted at clock
reading 0 records the timestamp 0; at clock reading 500 no correction is in flight
and the record is 500ms old, yet a second non-forced call is accepted: it
overwrites the record with 500 and issues a read.  From a start at clock reading 0
the polling loop's first call, made right after the forced one, is accepted as
well, and a call at 500 issues a third read. -/
theorem throttle_open_after_check_at_zero :
    (checkAndResetTitle sampleConfig init.g 0 false).1
      = ⟨[("3779662075668749", 0)], none, false⟩ ∧
    checkAndResetTitle sampleConfig ⟨[("3779662075668749", 0)], none, false⟩ 500 false
      = (⟨[("3779662075668749", 500)], none, false⟩,
         [Action.getThreadInfo "3779662075668749" ReadKind.evalRead]) ∧
    checkAndResetTitle sampleConfig ⟨[("3779662075668749", 0)], none, false⟩ 500 false
      ≠ (⟨[("3779662075668749", 0)], none, false⟩,
         [Action.log (LogMsg.skippingCheck 500)]) ∧
    readsOf (boot sampleConfig 0).trace = ["3779662075668749", "3779662075668749"] ∧
    readsOf (run sampleConfig (boot sampleConfig 0) [(500, Ev.evaluate false)]).trace
      = ["3779662075668749", "3779662075668749", "3779662075668749"] := by
  decide

/-- C4: a forced call made while no correction is in flight is accepted whatever
the throttle map holds: it records `now` as the last check of the configured thread
and issues one `getThreadInfo` for that thread, and nothing else. -/
theorem forced_check_accepted (cfg : Config) (g : Guard) (now : Int)
    (hidle : g.isProcessing = false) :
    checkAndResetTitle cfg g now true
      = ({ g with lastTitleCheck := setCheck g.lastTitleCheck cfg.GROUP_THREAD_ID now },
         [Action.getThreadInfo cfg.GROUP_THREAD_ID ReadKind.evalRead]) ∧
    getCheck (checkAndResetTitle cfg g now true).1.lastTitleCheck cfg.GROUP_THREAD_ID
      = some now ∧
    readsOf (checkAndResetTitle cfg g now true).2 = [cfg.GROUP_THREAD_ID] := by
  simp [checkAndResetTitle, hidle, getCheck, setCheck, readsOf]

/-- A forced call at the very clock reading of the last recorded check. -/
theorem forced_check_accepted_witness :
    (⟨[("3779662075668749", 7000)], none, false⟩ : Guard).isProcessing = false ∧
    checkAndResetTitle sampleConfig ⟨[("3779662075668749", 7000)], none, false⟩ 7000 true
      = (⟨[("3779662075668749", 7000)], none, false⟩,
         [Action.getThreadInfo "3779662075668749" ReadKind.evalRead]) :=
  ⟨rfl, (forced_check_accepted sampleConfig ⟨[("3779662075668749", 7000)], none, false⟩
      7000 rfl).1⟩

/-- C5: while `isProcessing` is set, a call of `checkAndResetTitle`, forced or not,
only writes a console message: the module state (throttle map, timer handle, flag)
is returned unchanged, and in the event loop the timer queue, the outstanding
platform calls and the handle counters stay as they were, so nothing is read,
written, scheduled or cancelled. -/
theorem in_flight_check_is_noop (cfg : Config) (s : Sys) (now : Int) (forceCheck : Bool)
    (hbusy : s.g.isProcessing = true) :
    checkAndResetTitle cfg s.g now forceCheck = (s.g, [Action.log LogMsg.alreadyProcessing]) ∧
    step cfg s now (Ev.evaluate forceCheck)
      = { s with trace := s.trace ++ [Action.log LogMsg.alreadyProcessing] } := by
  simp [checkAndResetTitle, hbusy, step, commit, exec]

/-- A forced call while a re-read is outstanding. -/
theorem in_flight_check_is_noop_witness :
    (⟨⟨[("3779662075668749", 100)], some 0, true⟩, false, [], [⟨1, CallKind.verifyRead⟩], 1, 2,
        []⟩ : Sys).g.isProcessing = true ∧
    step sampleConfig
        ⟨⟨[("3779662075668749", 100)], some 0, true⟩, false, [], [⟨1, CallKind.verifyRead⟩], 1, 2, []⟩
        9000 (Ev.evaluate true)
      = ⟨⟨[("3779662075668749", 100)], some 0, true⟩, false, [], [⟨1, CallKind.verifyRead⟩], 1, 2,
          [Action.log LogMsg.alreadyProcessing]⟩ :=
  ⟨rfl, (in_flight_check_is_noop sampleConfig
      ⟨⟨[("3779662075668749", 100)], some 0, true⟩, false, [], [⟨1, CallKind.verifyRead⟩], 1, 2, []⟩
      9000 true rfl).2⟩

/-! ## Overlapping corrections -/

/-- C7, evaluated where it fails: `overlapSchedule` is a schedule the event loop can
follow from a start at clock reading 1000.  Before its last event one correction is
in flight (re-read 2 outstanding) and correction timer 3 is queued; the last event
fires timer 3, whose callback starts a second re-read (call 3) while call 2 is
still outstanding, so two corrections are in flight.  Continued by `overlapTail`,
both corrections write, both writes are outstanding together, and the first write
callback clears `isProcessing` while the second write is still outstanding. -/
theorem second_correction_starts_during_first :
    feasible sampleConfig (boot sampleConfig 1000) 1000 (overlapSchedule ++ overlapTail) = true ∧
    (run sampleConfig (boot sampleConfig 1000) (overlapSchedule.take 5)).calls
      = [⟨2, CallKind.verifyRead⟩] ∧
    pendingCorrections (run sampleConfig (boot sampleConfig 1000) (overlapSchedule.take 5))
      = [⟨3, 5150, TimerKind.correction⟩] ∧
    inFlight (run sampleConfig (boot sampleConfig 1000) (overlapSchedule.take 5)) = 1 ∧
    (run sampleConfig (boot sampleConfig 1000) overlapSchedule).calls
      = [⟨2, CallKind.verifyRead⟩, ⟨3, CallKind.verifyRead⟩] ∧
    inFlight (run sampleConfig (boot sampleConfig 1000) overlapSchedule) = 2 ∧
    (run sampleConfig (boot sampleConfig 1000) (overlapSchedule ++ overlapTail.take 2)).calls
      = [⟨4, CallKind.write "Locked" "3779662075668749"⟩,
         ⟨5, CallKind.write "Locked" "3779662075668749"⟩] ∧
    (run sampleConfig (boot sampleConfig 1000) (overlapSchedule ++ overlapTail)).calls
      = [⟨5, CallKind.write "Locked" "3779662075668749"⟩] ∧
    (run sampleConfig (boot sampleConfig 1000) (overlapSchedule ++ overlapTail)).g.isProcessing
      = false := by
  decide

/-! ## The event trigger -/

/-- The five alternatives of `looksLikeTitleChange` say no more than the
specification's wording: the three literal names each contain "thread" and "name"
or "title". -/
theorem looksLikeTitleChange_eq (t : String) : looksLikeTitleChange t = denotesNameChange t := by
  unfold looksLikeTitleChange denotesNameChange
  by_cases h1 : t = "log:thread-name"
  · subst h1; decide
  by_cases h2 : t = "log:thread-title"
  · subst h2; decide
  by_cases h3 : t = "log:thread-name-change"
  · subst h3; decide
  have e1 : (t == "log:thread-name") = false := by simpa using h1
  have e2 : (t == "log:thread-title") = false := by simpa using h2
  have e3 : (t == "log:thread-name-change") = false := by simpa using h3
  rw [e1, e2, e3]
  cases includes t "thread" <;> cases includes t "name" <;> cases includes t "title" <;> rfl

/-- A string that contains "thread" is not empty. -/
theorem denotesNameChange_ne_empty (t : String) (h : denotesNameChange t = true) : t ≠ "" := by
  rintro rfl
  revert h
  decide

/-- The `||` chain of lines 173-176 picks the first present identifier field. -/
theorem eventThreadId_truthy (e : Event) :
    (eventThreadId e).truthy = (firstPresent (identifierFields e)).isSome ∧
    ∀ v, firstPresent (identifierFields e) = some v → eventThreadId e = v := by
  unfold eventThreadId identifierFields
  cases hd : e.logMessageData with
  | none =>
    have hu : JsVal.undefined.truthy = false := rfl
    cases h1 : e.threadID.truthy <;> simp [firstPresent, JsVal.or, h1, hu]
  | some d =>
    cases h1 : e.threadID.truthy <;> cases h2 : d.threadID.truthy <;>
      cases h3 : d.threadId.truthy <;> simp [firstPresent, JsVal.or, h1, h2, h3]

/-- The listener's callback computes the specification's matching rule. -/
theorem listenCallback_eq (cfg : Config) (fresh : Nat) (event : Option Event) :
    listenCallback cfg fresh false event
      = if isGroupNameChange cfg event then
          [Action.log LogMsg.eventDetected, Action.setTimeout fresh 500 TimerKind.settle]
        else [] := by
  cases event with
  | none => simp [listenCallback, isGroupNameChange]
  | some e =>
    obtain ⟨ty, cat, tid, data⟩ := e
    simp only [listenCallback, isGroupNameChange, looksLikeTitleChange_eq]
    by_cases hty : ty = JsVal.str "event"
    · subst hty
      cases cat with
      | none => simp [truthyStr]
      | some t =>
        cases hd : denotesNameChange t with
        | false => simp [hd]
        | true =>
          have hne : t ≠ "" := denotesNameChange_ne_empty t hd
          obtain ⟨htr, hval⟩ := eventThreadId_truthy ⟨JsVal.str "event", some t, tid, data⟩
          rcases Option.eq_none_or_eq_some
            (firstPresent (identifierFields ⟨JsVal.str "event", some t, tid, data⟩))
            with hfp | ⟨v, hfp⟩
          · rw [hfp] at htr
            simp [truthyStr, hne, hd, htr, hfp]
          · rw [hfp] at htr
            have hv := hval v hfp
            rw [hv] at htr
            simp [truthyStr, hne, hd, hv, htr, hfp]
    · simp [hty]

/-- C10: for an event delivered without an error, the listener queues one timer of
500ms whose callback is `checkAndResetTitle` with `forceCheck` false exactly when
the event has type "event", its category string contains "thread" and also "name" or
"title", and the first present of `event.threadID`, `logMessageData.threadID`,
`logMessageData.threadId` (present as JavaScript's `||` takes it: defined, not
empty, not zero), as a string, equals the configured thread identifier.  For every
other event the whole state of the event loop, module variables included, is
unchanged; in both cases the module variables are unchanged. -/
theorem event_trigger_matches_rule (cfg : Config) (s : Sys) (now : Int) (event : Option Event) :
    (timersOf (listenCallback cfg s.nextTimer false event) = [(s.nextTimer, 500, TimerKind.settle)]
      ↔ isGroupNameChange cfg event = true) ∧
    (timersOf (listenCallback cfg s.nextTimer false event) = []
      ↔ isGroupNameChange cfg event = false) ∧
    step cfg s now (Ev.mqtt false event)
      = (if isGroupNameChange cfg event then
          { s with
            timers := s.timers ++ [⟨s.nextTimer, now + 500, TimerKind.settle⟩]
            nextTimer := s.nextTimer + 1
            trace := s.trace ++ [Action.log LogMsg.eventDetected,
              Action.setTimeout s.nextTimer 500 TimerKind.settle] }
         else s) ∧
    (step cfg s now (Ev.mqtt false event)).g = s.g ∧
    (∀ (s1 : Sys) (h : Nat) (t : Timer) (later : Int),
      s1.timers.find? (fun u => u.handle == h) = some t → t.kind = TimerKind.settle →
      step cfg s1 later (Ev.timerFire h)
        = commit later { s1 with timers := s1.timers.filter (fun u => u.handle != h) }
            (checkAndResetTitle cfg s1.g later false)) := by
  have hcb := listenCallback_eq cfg s.nextTimer event
  refine ⟨?_, ?_, ?_, ?_, ?_⟩
  · rw [hcb]; cases isGroupNameChange cfg event <;> simp [timersOf]
  · rw [hcb]; cases isGroupNameChange cfg event <;> simp [timersOf]
  · simp only [step, hcb]
    cases isGroupNameChange cfg event <;> simp [commit, exec]
  · simp only [step, hcb]
    cases isGroupNameChange cfg event <;> simp [commit, exec]
  · intro s1 h t later hfind hkind
    simp only [step, hfind, hkind]

/-- The identifier may sit in `logMessageData.threadId` and be a number; an event of
another thread, and an event delivered as `null`, leave everything as it is. -/
theorem event_trigger_matches_rule_witness :
    (timersOf (listenCallback sampleConfig init.nextTimer false
        (some ⟨JsVal.str "event", some "log:thread-title", JsVal.undefined,
          some ⟨JsVal.undefined, JsVal.num 3779662075668749⟩⟩)) = [(0, 500, TimerKind.settle)]) ∧
    step sampleConfig init 40
        (Ev.mqtt false (some ⟨JsVal.str "event", some "log:thread-name", JsVal.str "12345", none⟩))
      = init ∧
    step sampleConfig init 40 (Ev.mqtt false none) = init :=
  ⟨((event_trigger_matches_rule sampleConfig init 40 _).1).2 (by decide),
   ((event_trigger_matches_rule sampleConfig init 40 _).2.2.1).trans (by decide),
   ((event_trigger_matches_rule sampleConfig init 40 _).2.2.1).trans (by decide)⟩

/-! ## Carrying out actions -/

theorem writesOf_append (a b : List Action) : writesOf (a ++ b) = writesOf a ++ writesOf b := by
  induction a with
  | nil => rfl
  | cons x rest ih => cases x <;> simp [writesOf, ih]

theorem exec_g (now : Int) (s : Sys) (a : Action) : (exec now s a).g = s.g := by
  cases a <;> rfl

/-- An invariant of single actions is an invariant of a callback's action list. -/
theorem foldl_exec_inv (now : Int) (P : Sys → Prop) (ok : Action → Bool)
    (hstep : ∀ s a, P s → ok a = true → P (exec now s a)) :
    ∀ (as : List Action) (s : Sys), P s → (∀ a ∈ as, ok a = true) → P (as.foldl (exec now) s) := by
  intro as
  induction as with
  | nil => intro s hs _; exact hs
  | cons a rest ih =>
    intro s hs hall
    rw [List.foldl_cons]
    exact ih _ (hstep s a hs (hall a (List.mem_cons_self a rest)))
      (fun b hb => hall b (List.mem_cons_of_mem a hb))

/-! ## Runs in which nothing diverges -/

theorem exec_quiet (now : Int) (s : Sys) (a : Action) (hs : Quiet s) (ha : a.quiet = true) :
    Quiet (exec now s a) := by
  obtain ⟨ht, hc, hw⟩ := hs
  cases a with
  | log m => exact ⟨ht, hc, by simp [exec, writesOf_append, hw, writesOf]⟩
  | getThreadInfo tid k =>
    cases k with
    | evalRead =>
      refine ⟨ht, ?_, by simp [exec, writesOf_append, hw, writesOf]⟩
      intro c hmem
      simp only [exec, List.mem_append, List.mem_singleton] at hmem
      rcases hmem with hmem | rfl
      · exact hc c hmem
      · rfl
    | verifyRead => simp [Action.quiet] at ha
  | setTitle t i => simp [Action.quiet] at ha
  | setTimeout h d k =>
    refine ⟨?_, hc, by simp [exec, writesOf_append, hw, writesOf]⟩
    intro t hmem
    simp only [exec, List.mem_append, List.mem_singleton] at hmem
    rcases hmem with hmem | rfl
    · exact ht t hmem
    · simpa [Action.quiet] using ha
  | clearTimeout h =>
    refine ⟨?_, hc, by simp [exec, writesOf_append, hw, writesOf]⟩
    intro t hmem
    simp only [exec, List.mem_filter] at hmem
    exact ht t hmem.1

theorem commit_quiet (now : Int) (s : Sys) (r : Guard × List Action) (hs : Quiet s)
    (hr : ∀ a ∈ r.2, a.quiet = true) : Quiet (commit now s r) :=
  foldl_exec_inv now Quiet Action.quiet (fun s a => exec_quiet now s a) r.2 _ hs hr

theorem checkAndResetTitle_quiet (cfg : Config) (g : Guard) (now : Int) (forceCheck : Bool) :
    ∀ a ∈ (checkAndResetTitle cfg g now forceCheck).2, a.quiet = true := by
  unfold checkAndResetTitle
  split
  · simp [Action.quiet]
  · dsimp only
    split <;> simp [Action.quiet]

theorem listenCallback_quiet (cfg : Config) (fresh : Nat) (err : Bool) (event : Option Event) :
    ∀ a ∈ listenCallback cfg fresh err event, a.quiet = true := by
  cases err with
  | true => simp [listenCallback, Action.quiet]
  | false =>
    rw [listenCallback_eq]
    split <;> simp [Action.quiet]

theorem pollLoop_quiet (cfg : Config) (g : Guard) (stopped : Bool) (now : Int) (fresh : Nat)
    (ms : Nat) : ∀ a ∈ (pollLoop cfg g stopped now fresh ms).2, a.quiet = true := by
  unfold pollLoop
  split
  · simp
  · intro a ha
    simp only [List.mem_append, List.mem_singleton] at ha
    rcases ha with ha | rfl
    · exact checkAndResetTitle_quiet cfg g now false a ha
    · rfl

theorem stopPolling_quiet (g : Guard) : ∀ a ∈ stopPolling g, a.quiet = true := by
  unfold stopPolling
  split <;> simp [Action.quiet]

theorem step_quiet (cfg : Config) (s : Sys) (now : Int) (ev : Ev) (hs : Quiet s)
    (hev : returnsLocked cfg ev = true) : Quiet (step cfg s now ev) := by
  cases ev with
  | evaluate forceCheck => exact commit_quiet now s _ hs (checkAndResetTitle_quiet cfg s.g now _)
  | mqtt err event => exact commit_quiet now s _ hs (listenCallback_quiet cfg _ err event)
  | timerFire h =>
    simp only [step]
    cases hfind : s.timers.find? (fun t => t.handle == h) with
    | none => exact hs
    | some t =>
      have hmem : t ∈ s.timers := List.mem_of_find?_eq_some hfind
      have hs1 : Quiet { s with timers := s.timers.filter (fun t => t.handle != h) } :=
        ⟨fun t ht => hs.1 t (List.mem_filter.mp ht).1, hs.2.1, hs.2.2⟩
      have hk := hs.1 t hmem
      cases hkind : t.kind with
      | correction => exact absurd hkind hk
      | settle =>
        simp only [hkind]
        exact commit_quiet now _ _ hs1 (checkAndResetTitle_quiet cfg s.g now _)
      | poll =>
        simp only [hkind]
        exact commit_quiet now _ _ hs1 (pollLoop_quiet cfg s.g s.stopped now _ _)
  | readDone id res =>
    simp only [step]
    cases hfind : s.calls.find? (fun c => c.id == id) with
    | none => exact hs
    | some c =>
      have hmem : c ∈ s.calls := List.mem_of_find?_eq_some hfind
      have hs1 : Quiet { s with calls := s.calls.filter (fun c => c.id != id) } :=
        ⟨hs.1, fun c hc => hs.2.1 c (List.mem_filter.mp hc).1, hs.2.2⟩
      have hk := hs.2.1 c hmem
      simp only [hk]
      apply commit_quiet now _ _ hs1
      cases res with
      | failure => simp [returnsLocked] at hev
      | success info =>
        have hname : currentNameOf info = JsVal.str cfg.LOCKED_GROUP_NAME := by
          simpa [returnsLocked] using hev
        simp [evalReadCallback, hname, Action.quiet]
  | writeDone id err =>
    simp only [step]
    cases hfind : s.calls.find? (fun c => c.id == id) with
    | none => exact hs
    | some c =>
      have hmem : c ∈ s.calls := List.mem_of_find?_eq_some hfind
      have hk := hs.2.1 c hmem
      simp only [hk]
      exact hs
  | stop =>
    exact commit_quiet now _ _ (show Quiet { s with stopped := true } from hs)
      (stopPolling_quiet s.g)

theorem init_quiet : Quiet init := by
  simp [Quiet, init, writesOf]

theorem boot_quiet (cfg : Config) (now : Int) : Quiet (boot cfg now) := by
  unfold boot
  exact commit_quiet now _ _ (commit_quiet now _ _ init_quiet (checkAndResetTitle_quiet cfg _ now _))
    (pollLoop_quiet cfg _ _ now _ _)

theorem run_quiet (cfg : Config) (evs : List (Int × Ev)) :
    ∀ s : Sys, Quiet s → evs.all (fun e => returnsLocked cfg e.2) = true → Quiet (run cfg s evs) := by
  induction evs with
  | nil => intro s hs _; exact hs
  | cons e rest ih =>
    intro s hs hall
    obtain ⟨now, ev⟩ := e
    simp only [List.all_cons, Bool.and_eq_true] at hall
    exact ih _ (step_quiet cfg s now ev hs hall.1) hall.2

/-- C6: an accepted evaluation whose read succeeds with the locked name leaves the
module state as it is and only writes a console message: no write is issued and no
correction is scheduled.  Consequently, from the state after login at any clock
reading, and from the load-time state, no sequence of events in which every read
reports the locked name (evaluate calls forced or not, listener events, timer
firings, completions, at any times) produces a `setTitle`. -/
theorem locked_name_never_written (cfg : Config) :
    (∀ (g : Guard) (fresh : Nat) (info : Option ThreadInfo),
      currentNameOf info = JsVal.str cfg.LOCKED_GROUP_NAME →
      evalReadCallback cfg g fresh (.success info) = (g, [Action.log LogMsg.alreadyLocked])) ∧
    (∀ (t0 : Int) (evs : List (Int × Ev)),
      evs.all (fun e => returnsLocked cfg e.2) = true →
      writesOf (run cfg (boot cfg t0) evs).trace = [] ∧
      writesOf (run cfg init evs).trace = [] ∧
      pendingCorrections (run cfg (boot cfg t0) evs) = []) := by
  refine ⟨?_, ?_⟩
  · intro g fresh info h
    simp [evalReadCallback, h]
  · intro t0 evs hall
    have hq := run_quiet cfg evs _ (boot_quiet cfg t0) hall
    refine ⟨hq.2.2, (run_quiet cfg evs _ init_quiet hall).2.2, ?_⟩
    unfold pendingCorrections
    rw [List.filter_eq_nil_iff]
    intro t ht
    simpa using hq.1 t ht

/-- The scenario of the specification: the forced check at start reads "Locked";
later a rename event for the thread arrives, its settle timer fires, and that
check reads "Locked" too. -/
theorem locked_name_never_written_witness :
    writesOf (run sampleConfig (boot sampleConfig 1000)
      [(1100, Ev.readDone 0 (.success (some ⟨JsVal.str "Locked", JsVal.undefined⟩))),
       (5000, Ev.mqtt false renameEvent),
       (5500, Ev.timerFire 1),
       (5600, Ev.readDone 1 (.success (some ⟨JsVal.str "Locked", JsVal.undefined⟩))),
       (5700, Ev.evaluate true)]).trace = [] :=
  ((locked_name_never_written sampleConfig).2 1000 _ (by decide)).1

/-! ## At most one queued correction -/

theorem calm_fresh_of_no_timers (as : List Action) (h : timersOf as = []) :
    (∀ a ∈ as, a.calm = true) ∧ ∀ n, timersFresh n as = true := by
  induction as with
  | nil => simp [timersFresh]
  | cons a rest ih =>
    cases a with
    | setTimeout hd d k => simp [timersOf] at h
    | log m =>
      have := ih (by simpa [timersOf] using h)
      exact ⟨by simpa [Action.calm] using this.1, fun n => by simpa [timersFresh] using this.2 n⟩
    | getThreadInfo tid k =>
      have := ih (by simpa [timersOf] using h)
      exact ⟨by simpa [Action.calm] using this.1, fun n => by simpa [timersFresh] using this.2 n⟩
    | setTitle t i =>
      have := ih (by simpa [timersOf] using h)
      exact ⟨by simpa [Action.calm] using this.1, fun n => by simpa [timersFresh] using this.2 n⟩
    | clearTimeout hd =>
      have := ih (by simpa [timersOf] using h)
      exact ⟨by simpa [Action.calm] using this.1, fun n => by simpa [timersFresh] using this.2 n⟩

theorem exec_tracked (now : Int) (s : Sys) (a : Action) (hs : Tracked s) (ha : a.calm = true) :
    Tracked (exec now s a) := by
  intro t hmem hkind
  rw [exec_g]
  cases a with
  | log m => exact hs t hmem hkind
  | getThreadInfo tid k => exact hs t hmem hkind
  | setTitle ti i => exact hs t hmem hkind
  | setTimeout h d k =>
    simp only [exec, List.mem_append, List.mem_singleton] at hmem
    rcases hmem with hmem | rfl
    · exact hs t hmem hkind
    · simp [Action.calm] at ha
      exact absurd hkind ha
  | clearTimeout h =>
    simp only [exec, List.mem_filter] at hmem
    exact hs t hmem.1 hkind

theorem foldl_exec_fresh (now : Int) (as : List Action) :
    ∀ s : Sys, Fresh s → timersFresh s.nextTimer as = true → Fresh (as.foldl (exec now) s) := by
  induction as with
  | nil => intro s hs _; exact hs
  | cons a rest ih =>
    intro s hs hfr
    rw [List.foldl_cons]
    cases a with
    | log m => exact ih _ hs (by simpa [timersFresh, exec] using hfr)
    | getThreadInfo tid k =>
      exact ih _ (show Fresh (exec now s (Action.getThreadInfo tid k)) from hs)
        (by simpa [timersFresh, exec] using hfr)
    | setTitle ti i =>
      exact ih _ (show Fresh (exec now s (Action.setTitle ti i)) from hs)
        (by simpa [timersFresh, exec] using hfr)
    | setTimeout h d k =>
      simp only [timersFresh, Bool.and_eq_true, beq_iff_eq] at hfr
      obtain ⟨rfl, hrest⟩ := hfr
      refine ih _ ?_ (by simpa [exec] using hrest)
      intro t hmem
      simp only [exec, List.mem_append, List.mem_singleton] at hmem ⊢
      rcases hmem with hmem | rfl
      · exact Nat.lt_succ_of_lt (hs t hmem)
      · exact Nat.lt_succ_self _
    | clearTimeout h =>
      refine ih _ ?_ (by simpa [timersFresh, exec] using hfr)
      intro t hmem
      simp only [exec, List.mem_filter] at hmem ⊢
      exact hs t hmem.1

/-- A callback that keeps `resetTimeout`, queues no correction timer and takes
fresh handles keeps both invariants. -/
theorem commit_inv (now : Int) (s : Sys) (r : Guard × List Action)
    (hs : Tracked s ∧ Fresh s) (hreset : r.1.resetTimeout = s.g.resetTimeout)
    (hcalm : ∀ a ∈ r.2, a.calm = true) (hfresh : timersFresh s.nextTimer r.2 = true) :
    Tracked (commit now s r) ∧ Fresh (commit now s r) := by
  refine ⟨?_, ?_⟩
  · refine foldl_exec_inv now Tracked Action.calm (fun s a => exec_tracked now s a) r.2 _ ?_ hcalm
    intro t hmem hkind
    show r.1.resetTimeout = some t.handle
    rw [hreset]
    exact hs.1 t hmem hkind
  · exact foldl_exec_fresh now r.2 { s with g := r.1 } hs.2 hfresh

theorem checkAndResetTitle_ordinary (cfg : Config) (g : Guard) (now : Int) (forceCheck : Bool) :
    (checkAndResetTitle cfg g now forceCheck).1.resetTimeout = g.resetTimeout ∧
    timersOf (checkAndResetTitle cfg g now forceCheck).2 = [] := by
  unfold checkAndResetTitle
  split
  · simp [timersOf]
  · dsimp only
    split <;> simp [timersOf]

theorem commit_check_inv (cfg : Config) (now : Int) (s : Sys) (g : Guard) (forceCheck : Bool)
    (hs : Tracked s ∧ Fresh s) (hg : g.resetTimeout = s.g.resetTimeout) :
    Tracked (commit now s (checkAndResetTitle cfg g now forceCheck)) ∧
    Fresh (commit now s (checkAndResetTitle cfg g now forceCheck)) := by
  have h := checkAndResetTitle_ordinary cfg g now forceCheck
  have h2 := calm_fresh_of_no_timers _ h.2
  exact commit_inv now s _ hs (h.1.trans hg) h2.1 (h2.2 _)

theorem commit_poll_inv (cfg : Config) (now : Int) (s : Sys) (hs : Tracked s ∧ Fresh s) :
    Tracked (commit now s (pollLoop cfg s.g s.stopped now s.nextTimer 30000)) ∧
    Fresh (commit now s (pollLoop cfg s.g s.stopped now s.nextTimer 30000)) := by
  have h := checkAndResetTitle_ordinary cfg s.g now false
  have h2 := calm_fresh_of_no_timers _ h.2
  unfold pollLoop
  split
  · exact commit_inv now s _ hs rfl (by simp) (by simp [timersFresh])
  · refine commit_inv now s _ hs h.1 ?_ ?_
    · intro a ha
      simp only [List.mem_append, List.mem_singleton] at ha
      rcases ha with ha | rfl
      · exact h2.1 a ha
      · rfl
    · have key : ∀ (as : List Action) (n : Nat), timersOf as = [] →
          timersFresh n (as ++ [Action.setTimeout n 30000 TimerKind.poll]) = true := by
        intro as
        induction as with
        | nil => intro n _; simp [timersFresh]
        | cons a rest ih =>
          intro n hnil
          cases a with
          | setTimeout hd d k => simp [timersOf] at hnil
          | log m => simpa [timersFresh] using ih n (by simpa [timersOf] using hnil)
          | getThreadInfo tid k => simpa [timersFresh] using ih n (by simpa [timersOf] using hnil)
          | setTitle ti i => simpa [timersFresh] using ih n (by simpa [timersOf] using hnil)
          | clearTimeout hd => simpa [timersFresh] using ih n (by simpa [timersOf] using hnil)
      exact key _ _ h.2

/-- The timer queue after an evaluation read reports a name other than the locked
one: the timer `resetTimeout` held is removed, and one correction timer with a
new handle, due 2000ms later, is appended. -/
theorem commit_diverged (cfg : Config) (now : Int) (s : Sys) (info : Option ThreadInfo)
    (hdiff : currentNameOf info ≠ JsVal.str cfg.LOCKED_GROUP_NAME) :
    (commit now s (evalReadCallback cfg s.g s.nextTimer (.success info))).timers
      = (match s.g.resetTimeout with
          | some h => s.timers.filter (fun t => t.handle != h)
          | none => s.timers) ++ [⟨s.nextTimer, now + 2000, TimerKind.correction⟩] ∧
    (commit now s (evalReadCallback cfg s.g s.nextTimer (.success info))).g.resetTimeout
      = some s.nextTimer ∧
    (commit now s (evalReadCallback cfg s.g s.nextTimer (.success info))).nextTimer
      = s.nextTimer + 1 := by
  cases hr : s.g.resetTimeout <;> simp [commit, evalReadCallback, hdiff, hr, exec]

theorem commit_evalRead_inv (cfg : Config) (now : Int) (s : Sys) (res : ReadResult)
    (hs : Tracked s ∧ Fresh s) :
    Tracked (commit now s (evalReadCallback cfg s.g s.nextTimer res)) ∧
    Fresh (commit now s (evalReadCallback cfg s.g s.nextTimer res)) := by
  cases res with
  | failure =>
    have h1 : evalReadCallback cfg s.g s.nextTimer .failure
        = (s.g, [Action.log LogMsg.fetchError]) := rfl
    rw [h1]
    exact commit_inv now s _ hs rfl (by simp [Action.calm]) (by simp [timersFresh])
  | success info =>
    by_cases hdiff : currentNameOf info = JsVal.str cfg.LOCKED_GROUP_NAME
    · have h1 : evalReadCallback cfg s.g s.nextTimer (.success info)
          = (s.g, [Action.log LogMsg.alreadyLocked]) := by
        simp [evalReadCallback, hdiff]
      rw [h1]
      exact commit_inv now s _ hs rfl (by simp [Action.calm]) (by simp [timersFresh])
    · obtain ⟨ht, hg, hn⟩ := commit_diverged cfg now s info hdiff
      have hsub : ∀ t : Timer, t ∈ (match s.g.resetTimeout with
          | some h => s.timers.filter (fun u : Timer => u.handle != h)
          | none => s.timers) → (t ∈ s.timers ∧ s.g.resetTimeout ≠ some t.handle) := by
        intro t hmem
        cases hr : s.g.resetTimeout with
        | none => rw [hr] at hmem; exact ⟨hmem, by simp⟩
        | some h =>
          rw [hr] at hmem
          simp only [List.mem_filter, bne_iff_ne, ne_eq] at hmem
          exact ⟨hmem.1, fun heq => hmem.2 (Option.some.inj heq).symm⟩
      refine ⟨?_, ?_⟩
      · intro t hmem hkind
        rw [hg]
        rw [ht, List.mem_append, List.mem_singleton] at hmem
        rcases hmem with hmem | rfl
        · exact absurd (hs.1 t (hsub t hmem).1 hkind) (hsub t hmem).2
        · rfl
      · intro t hmem
        rw [hn]
        rw [ht, List.mem_append, List.mem_singleton] at hmem
        rcases hmem with hmem | rfl
        · exact Nat.lt_succ_of_lt (hs.2 t (hsub t hmem).1)
        · exact Nat.lt_succ_self _

theorem step_inv (cfg : Config) (s : Sys) (now : Int) (ev : Ev) (hs : Tracked s ∧ Fresh s) :
    Tracked (step cfg s now ev) ∧ Fresh (step cfg s now ev) := by
  cases ev with
  | evaluate forceCheck => exact commit_check_inv cfg now s s.g forceCheck hs rfl
  | mqtt err event =>
    refine commit_inv now s _ hs rfl ?_ ?_
    · intro a ha
      have := listenCallback_quiet cfg s.nextTimer err event a ha
      cases a <;> simp_all [Action.calm, Action.quiet]
    · cases err with
      | true => simp [listenCallback, timersFresh]
      | false =>
        rw [listenCallback_eq]
        split <;> simp [timersFresh]
  | timerFire h =>
    simp only [step]
    cases hfind : s.timers.find? (fun t => t.handle == h) with
    | none => exact hs
    | some t =>
      have hs1 : Tracked { s with timers := s.timers.filter (fun t => t.handle != h) } ∧
          Fresh { s with timers := s.timers.filter (fun t => t.handle != h) } :=
        ⟨fun t ht hk => hs.1 t (List.mem_filter.mp ht).1 hk,
         fun t ht => hs.2 t (List.mem_filter.mp ht).1⟩
      cases hkind : t.kind with
      | correction =>
        simp only [hkind]
        exact commit_inv now _ _ hs1 rfl (by simp [correctionTimer, Action.calm])
          (by simp [correctionTimer, timersFresh])
      | settle =>
        simp only [hkind]
        exact commit_check_inv cfg now _ s.g false hs1 rfl
      | poll =>
        simp only [hkind]
        exact commit_poll_inv cfg now _ hs1
  | readDone id res =>
    simp only [step]
    cases hfind : s.calls.find? (fun c => c.id == id) with
    | none => exact hs
    | some c =>
      have hs1 : Tracked { s with calls := s.calls.filter (fun c => c.id != id) } ∧
          Fresh { s with calls := s.calls.filter (fun c => c.id != id) } := hs
      cases hkind : c.kind with
      | evalRead =>
        simp only [hkind]
        exact commit_evalRead_inv cfg now _ res hs1
      | verifyRead =>
        simp only [hkind]
        have h2 : (verifyReadCallback cfg s.g res).1.resetTimeout = s.g.resetTimeout ∧
            timersOf (verifyReadCallback cfg s.g res).2 = [] := by
          cases res with
          | failure => simp [verifyReadCallback, timersOf]
          | success info =>
            by_cases hd : currentNameOf info = JsVal.str cfg.LOCKED_GROUP_NAME <;>
              simp [verifyReadCallback, hd, timersOf, safeSetTitle]
        have h3 := calm_fresh_of_no_timers _ h2.2
        exact commit_inv now _ _ hs1 h2.1 h3.1 (h3.2 _)
      | write title threadID =>
        simp only [hkind]
        exact hs
  | writeDone id err =>
    simp only [step]
    cases hfind : s.calls.find? (fun c => c.id == id) with
    | none => exact hs
    | some c =>
      have hs1 : Tracked { s with calls := s.calls.filter (fun c => c.id != id) } ∧
          Fresh { s with calls := s.calls.filter (fun c => c.id != id) } := hs
      cases hkind : c.kind with
      | evalRead => simp only [hkind]; exact hs
      | verifyRead => simp only [hkind]; exact hs
      | write title threadID =>
        simp only [hkind]
        have h2 : (setTitleCallback s.g title threadID err).1.resetTimeout = s.g.resetTimeout ∧
            timersOf (setTitleCallback s.g title threadID err).2 = [] := by
          cases err <;> simp [setTitleCallback, timersOf]
        have h3 := calm_fresh_of_no_timers _ h2.2
        exact commit_inv now _ _ hs1 h2.1 h3.1 (h3.2 _)
  | stop =>
    simp only [step]
    have hs1 : Tracked { s with stopped := true } ∧ Fresh { s with stopped := true } := hs
    have h2 : timersOf (stopPolling s.g) = [] := by
      unfold stopPolling
      split <;> simp [timersOf]
    have h3 := calm_fresh_of_no_timers _ h2
    exact commit_inv now _ (s.g, stopPolling s.g) hs1 rfl h3.1 (h3.2 _)

theorem init_inv : Tracked init ∧ Fresh init := by
  simp [Tracked, Fresh, init]

theorem boot_inv (cfg : Config) (now : Int) : Tracked (boot cfg now) ∧ Fresh (boot cfg now) := by
  unfold boot
  exact commit_poll_inv cfg now _ (commit_check_inv cfg now init init.g true init_inv rfl)

theorem run_inv (cfg : Config) (evs : List (Int × Ev)) :
    ∀ s : Sys, Tracked s ∧ Fresh s → Tracked (run cfg s evs) ∧ Fresh (run cfg s evs) := by
  induction evs with
  | nil => intro s hs; exact hs
  | cons e rest ih =>
    intro s hs
    exact ih _ (step_inv cfg s e.1 e.2 hs)

/-- C8: in every state `s` reached from the state after login, when the outstanding
call `id` is an evaluation read and it succeeds with a name (the value of
`info?.name || info?.threadName || "Unknown"`) different from the locked name, the
callback calls `clearTimeout` on the handle `resetTimeout` holds, if any, and calls
`setTimeout` exactly once, with a delay of 2000ms; afterwards the new timer, due
2000ms after the callback ran, is the only correction timer queued, every
correction timer queued before is gone from the queue, and `resetTimeout` holds the
new handle. -/
theorem divergence_replaces_pending_correction (cfg : Config) (t0 : Int)
    (evs : List (Int × Ev)) (s : Sys) (now : Int) (id : Nat) (info : Option ThreadInfo)
    (hreach : s = run cfg (boot cfg t0) evs)
    (hcall : s.calls.find? (fun c => c.id == id) = some ⟨id, CallKind.evalRead⟩)
    (hdiff : currentNameOf info ≠ JsVal.str cfg.LOCKED_GROUP_NAME) :
    timersOf (evalReadCallback cfg s.g s.nextTimer (.success info)).2
      = [(s.nextTimer, 2000, TimerKind.correction)] ∧
    clearsOf (evalReadCallback cfg s.g s.nextTimer (.success info)).2
      = s.g.resetTimeout.toList ∧
    pendingCorrections (step cfg s now (Ev.readDone id (.success info)))
      = [⟨s.nextTimer, now + 2000, TimerKind.correction⟩] ∧
    (∀ t ∈ pendingCorrections s, t ∉ (step cfg s now (Ev.readDone id (.success info))).timers) ∧
    (step cfg s now (Ev.readDone id (.success info))).g.resetTimeout = some s.nextTimer := by
  have hinv : Tracked s ∧ Fresh s := by
    rw [hreach]
    exact run_inv cfg evs _ (boot_inv cfg t0)
  obtain ⟨hT, hF⟩ := hinv
  have hstep : step cfg s now (Ev.readDone id (.success info))
      = commit now { s with calls := s.calls.filter (fun c => c.id != id) }
          (evalReadCallback cfg s.g s.nextTimer (.success info)) := by
    simp only [step, hcall]
  obtain ⟨ht, hg, _⟩ :=
    commit_diverged cfg now { s with calls := s.calls.filter (fun c => c.id != id) } info hdiff
  rw [hstep]
  have hold : ∀ t : Timer, t ∈ (match s.g.resetTimeout with
      | some h => s.timers.filter (fun u : Timer => u.handle != h)
      | none => s.timers) → (t ∈ s.timers ∧ s.g.resetTimeout ≠ some t.handle) := by
    intro t hmem
    cases hr : s.g.resetTimeout with
    | none => rw [hr] at hmem; exact ⟨hmem, by simp⟩
    | some h =>
      rw [hr] at hmem
      simp only [List.mem_filter, bne_iff_ne, ne_eq] at hmem
      exact ⟨hmem.1, fun heq => hmem.2 (Option.some.inj heq).symm⟩
  refine ⟨?_, ?_, ?_, ?_, hg⟩
  · cases hr : s.g.resetTimeout <;> simp [evalReadCallback, hdiff, hr, timersOf]
  · cases hr : s.g.resetTimeout <;> simp [evalReadCallback, hdiff, hr, clearsOf]
  · unfold pendingCorrections
    rw [ht, List.filter_append]
    have hnil : List.filter (fun t : Timer => t.kind == TimerKind.correction)
        (match s.g.resetTimeout with
          | some h => s.timers.filter (fun u : Timer => u.handle != h)
          | none => s.timers) = [] := by
      rw [List.filter_eq_nil_iff]
      intro t hmem hkind
      have hk : t.kind = TimerKind.correction := by simpa using hkind
      exact (hold t hmem).2 (hT t (hold t hmem).1 hk)
    simp only [] at hnil ⊢
    rw [hnil]
    simp
  · intro t hpend hmem
    unfold pendingCorrections at hpend
    rw [List.mem_filter] at hpend
    have hk : t.kind = TimerKind.correction := by simpa using hpend.2
    rw [ht, List.mem_append, List.mem_singleton] at hmem
    rcases hmem with hmem | rfl
    · exact (hold t hmem).2 (hT t hpend.1 hk)
    · exact Nat.lt_irrefl _ (hF _ hpend.1)

/-- A rename event arrives while correction timer 1 (due at 3100) is queued; the
check it triggers reads "Hacked" at 3080: timer 1 is cancelled and timer 3, due at
5080, is the only correction queued. -/
theorem divergence_replaces_pending_correction_witness :
    pendingCorrections (run sampleConfig (boot sampleConfig 1000) (overlapSchedule.take 3))
      = [⟨1, 3100, TimerKind.correction⟩] ∧
    pendingCorrections (step sampleConfig
        (run sampleConfig (boot sampleConfig 1000) (overlapSchedule.take 3)) 3080
        (Ev.readDone 1 hacked))
      = [⟨3, 5080, TimerKind.correction⟩] :=
  ⟨by decide,
   (divergence_replaces_pending_correction sampleConfig 1000 (overlapSchedule.take 3)
      (run sampleConfig (boot sampleConfig 1000) (overlapSchedule.take 3)) 3080 1
      (some ⟨JsVal.str "Hacked", JsVal.str "Hacked"⟩) rfl (by decide) (by decide)).2.2.1.trans
      (by decide)⟩

/-! ## The in-flight flag over one correction -/

theorem exec_callsFresh (now : Int) (s : Sys) (a : Action) (hs : CallsFresh s)
    (_ha : (fun _ : Action => true) a = true) : CallsFresh (exec now s a) := by
  cases a with
  | log m => exact hs
  | getThreadInfo tid k =>
    intro c hmem
    simp only [exec, List.mem_append, List.mem_singleton] at hmem ⊢
    rcases hmem with hmem | rfl
    · exact Nat.lt_succ_of_lt (hs c hmem)
    · exact Nat.lt_succ_self _
  | setTitle ti i =>
    intro c hmem
    simp only [exec, List.mem_append, List.mem_singleton] at hmem ⊢
    rcases hmem with hmem | rfl
    · exact Nat.lt_succ_of_lt (hs c hmem)
    · exact Nat.lt_succ_self _
  | setTimeout h d k => exact hs
  | clearTimeout h => exact hs

theorem commit_callsFresh (now : Int) (s : Sys) (r : Guard × List Action) (hs : CallsFresh s) :
    CallsFresh (commit now s r) :=
  foldl_exec_inv now CallsFresh (fun _ => true) (fun s a => exec_callsFresh now s a) r.2 _ hs
    (fun _ _ => rfl)

theorem step_callsFresh (cfg : Config) (s : Sys) (now : Int) (ev : Ev) (hs : CallsFresh s) :
    CallsFresh (step cfg s now ev) := by
  have hfilter : ∀ id : Nat,
      CallsFresh { s with calls := s.calls.filter (fun c => c.id != id) } :=
    fun id c hc => hs c (List.mem_filter.mp hc).1
  cases ev with
  | evaluate forceCheck => exact commit_callsFresh now s _ hs
  | mqtt err event => exact commit_callsFresh now s _ hs
  | timerFire h =>
    simp only [step]
    cases hfind : s.timers.find? (fun t => t.handle == h) with
    | none => exact hs
    | some t =>
      have hs1 : CallsFresh { s with timers := s.timers.filter (fun t => t.handle != h) } := hs
      cases hkind : t.kind <;> simp only [hkind] <;> exact commit_callsFresh now _ _ hs1
  | readDone id res =>
    simp only [step]
    cases hfind : s.calls.find? (fun c => c.id == id) with
    | none => exact hs
    | some c =>
      cases hkind : c.kind with
      | evalRead => simp only [hkind]; exact commit_callsFresh now _ _ (hfilter id)
      | verifyRead => simp only [hkind]; exact commit_callsFresh now _ _ (hfilter id)
      | write title threadID => simp only [hkind]; exact hs
  | writeDone id err =>
    simp only [step]
    cases hfind : s.calls.find? (fun c => c.id == id) with
    | none => exact hs
    | some c =>
      cases hkind : c.kind with
      | evalRead => simp only [hkind]; exact hs
      | verifyRead => simp only [hkind]; exact hs
      | write title threadID => simp only [hkind]; exact commit_callsFresh now _ _ (hfilter id)
  | stop =>
    exact commit_callsFresh now _ _ (show CallsFresh { s with stopped := true } from hs)

theorem boot_callsFresh (cfg : Config) (now : Int) : CallsFresh (boot cfg now) := by
  unfold boot
  refine commit_callsFresh now _ _ (commit_callsFresh now _ _ ?_)
  simp [CallsFresh, init]

theorem run_callsFresh (cfg : Config) (evs : List (Int × Ev)) :
    ∀ s : Sys, CallsFresh s → CallsFresh (run cfg s evs) := by
  induction evs with
  | nil => intro s hs; exact hs
  | cons e rest ih =>
    intro s hs
    exact ih _ (step_callsFresh cfg s e.1 e.2 hs)

/-- A call appended with a new identifier is the one found under it. -/
theorem find_appended_call (calls : List Call) (n : Nat) (k : CallKind)
    (h : ∀ c ∈ calls, c.id < n) :
    (calls ++ [(⟨n, k⟩ : Call)]).find? (fun c : Call => c.id == n) = some ⟨n, k⟩ := by
  induction calls with
  | nil => simp
  | cons c rest ih =>
    have hc : c.id ≠ n := Nat.ne_of_lt (h c (List.mem_cons_self c rest))
    have hb : (c.id == n) = false := by simpa using hc
    rw [List.cons_append, List.find?_cons, hb]
    exact ih (fun d hd => h d (List.mem_cons_of_mem c hd))

/-- Removing a call appended with a new identifier gives the calls back. -/
theorem filter_appended_call (calls : List Call) (n : Nat) (k : CallKind)
    (h : ∀ c ∈ calls, c.id < n) :
    (calls ++ [(⟨n, k⟩ : Call)]).filter (fun c : Call => c.id != n) = calls := by
  induction calls with
  | nil => simp
  | cons c rest ih =>
    have hc : c.id ≠ n := Nat.ne_of_lt (h c (List.mem_cons_self c rest))
    have hb : (c.id != n) = true := by simpa using hc
    rw [List.cons_append, List.filter_cons, hb]
    simp only [if_true]
    rw [ih (fun d hd => h d (List.mem_cons_of_mem c hd))]

/-- The state after a queued correction timer fires: the flag is set and the
re-read is outstanding under the next call identifier. -/
theorem step_fire_correction (cfg : Config) (s : Sys) (now : Int) (h : Nat) (t : Timer)
    (hfind : s.timers.find? (fun u => u.handle == h) = some t)
    (hkind : t.kind = TimerKind.correction) :
    step cfg s now (Ev.timerFire h)
      = { s with
          g := { s.g with isProcessing := true }
          timers := s.timers.filter (fun u => u.handle != h)
          calls := s.calls ++ [⟨s.nextCall, CallKind.verifyRead⟩]
          nextCall := s.nextCall + 1
          trace := s.trace ++ [Action.getThreadInfo cfg.GROUP_THREAD_ID ReadKind.verifyRead] } := by
  simp [step, hfind, hkind, commit, correctionTimer, exec, ReadKind.toCall]

/-- The completion of an outstanding re-read runs the callback of line 102. -/
theorem step_verify (cfg : Config) (s : Sys) (now : Int) (id : Nat) (res : ReadResult)
    (hfind : s.calls.find? (fun c => c.id == id) = some ⟨id, CallKind.verifyRead⟩) :
    step cfg s now (Ev.readDone id res)
      = commit now { s with calls := s.calls.filter (fun c => c.id != id) }
          (verifyReadCallback cfg s.g res) := by
  simp only [step, hfind]

/-- The completion of an outstanding write runs the callback of line 44. -/
theorem step_write (cfg : Config) (s : Sys) (now : Int) (id : Nat) (title threadID : String)
    (err : Bool)
    (hfind : s.calls.find? (fun c => c.id == id) = some ⟨id, CallKind.write title threadID⟩) :
    step cfg s now (Ev.writeDone id err)
      = commit now { s with calls := s.calls.filter (fun c => c.id != id) }
          (setTitleCallback s.g title threadID err) := by
  simp only [step, hfind]

/-- The run of one correction whose re-read reports `res`: the timer fires at `now`,
the re-read completes at `t2`. -/
theorem run_fire_verify (cfg : Config) (s : Sys) (now t2 : Int) (h : Nat) (t : Timer)
    (res : ReadResult) (hcf : CallsFresh s)
    (hfind : s.timers.find? (fun u => u.handle == h) = some t)
    (hkind : t.kind = TimerKind.correction) :
    run cfg s [(now, Ev.timerFire h), (t2, Ev.readDone s.nextCall res)]
      = commit t2
          { s with
            g := { s.g with isProcessing := true }
            timers := s.timers.filter (fun u => u.handle != h)
            nextCall := s.nextCall + 1
            trace := s.trace ++ [Action.getThreadInfo cfg.GROUP_THREAD_ID ReadKind.verifyRead] }
          (verifyReadCallback cfg { s.g with isProcessing := true } res) := by
  simp only [run]
  rw [step_fire_correction cfg s now h t hfind hkind]
  rw [step_verify cfg _ t2 s.nextCall res (find_appended_call s.calls s.nextCall _ hcf)]
  simp only [filter_appended_call s.calls s.nextCall _ hcf]

/-- C9: in every state reached from the state after login, when a queued correction
timer fires the event loop sets `isProcessing` and has the re-read outstanding; the
flag is false again once the correction's last callback has run, on each outcome:
the re-read fails (no write attempted), the re-read shows the locked name (no
write), the write succeeds, the write fails.  On the two write outcomes the re-read
callback leaves the flag set and has the one write outstanding, and the write's
callback clears the flag.  The last three parts say the same of the completions
when other callbacks ran in between: whenever the re-read or the write is the
outstanding call that completes, its callback ends with the flag false, or issues
the write. -/
theorem correction_sets_and_clears_flag (cfg : Config) (t0 : Int) (evs : List (Int × Ev))
    (s : Sys) (h : Nat) (t : Timer) (now t2 t3 : Int)
    (hreach : s = run cfg (boot cfg t0) evs)
    (hfind : s.timers.find? (fun u => u.handle == h) = some t)
    (hkind : t.kind = TimerKind.correction) :
    ((step cfg s now (Ev.timerFire h)).g.isProcessing = true ∧
      (step cfg s now (Ev.timerFire h)).calls
        = s.calls ++ [⟨s.nextCall, CallKind.verifyRead⟩]) ∧
    ((run cfg s [(now, Ev.timerFire h), (t2, Ev.readDone s.nextCall .failure)]).g.isProcessing
        = false ∧
      (run cfg s [(now, Ev.timerFire h), (t2, Ev.readDone s.nextCall .failure)]).calls
        = s.calls ∧
      writesOf (run cfg s [(now, Ev.timerFire h),
        (t2, Ev.readDone s.nextCall .failure)]).trace = writesOf s.trace) ∧
    (∀ info2, currentNameOf info2 = JsVal.str cfg.LOCKED_GROUP_NAME →
      (run cfg s [(now, Ev.timerFire h),
        (t2, Ev.readDone s.nextCall (.success info2))]).g.isProcessing = false ∧
      (run cfg s [(now, Ev.timerFire h),
        (t2, Ev.readDone s.nextCall (.success info2))]).calls = s.calls ∧
      writesOf (run cfg s [(now, Ev.timerFire h),
        (t2, Ev.readDone s.nextCall (.success info2))]).trace = writesOf s.trace) ∧
    (∀ info2 err, currentNameOf info2 ≠ JsVal.str cfg.LOCKED_GROUP_NAME →
      (run cfg s [(now, Ev.timerFire h),
        (t2, Ev.readDone s.nextCall (.success info2))]).g.isProcessing = true ∧
      (run cfg s [(now, Ev.timerFire h),
        (t2, Ev.readDone s.nextCall (.success info2))]).calls
        = s.calls ++
          [⟨s.nextCall + 1, CallKind.write cfg.LOCKED_GROUP_NAME cfg.GROUP_THREAD_ID⟩] ∧
      (run cfg s [(now, Ev.timerFire h), (t2, Ev.readDone s.nextCall (.success info2)),
        (t3, Ev.writeDone (s.nextCall + 1) err)]).g.isProcessing = false ∧
      (run cfg s [(now, Ev.timerFire h), (t2, Ev.readDone s.nextCall (.success info2)),
        (t3, Ev.writeDone (s.nextCall + 1) err)]).calls = s.calls ∧
      writesOf (run cfg s [(now, Ev.timerFire h), (t2, Ev.readDone s.nextCall (.success info2)),
        (t3, Ev.writeDone (s.nextCall + 1) err)]).trace
        = writesOf s.trace ++ [(cfg.LOCKED_GROUP_NAME, cfg.GROUP_THREAD_ID)]) ∧
    (∀ (s2 : Sys) (id : Nat) (later : Int),
      s2.calls.find? (fun c => c.id == id) = some ⟨id, CallKind.verifyRead⟩ →
      (step cfg s2 later (Ev.readDone id .failure)).g.isProcessing = false ∧
      ∀ info2, currentNameOf info2 = JsVal.str cfg.LOCKED_GROUP_NAME →
        (step cfg s2 later (Ev.readDone id (.success info2))).g.isProcessing = false) ∧
    (∀ (s2 : Sys) (id : Nat) (later : Int) (info2 : Option ThreadInfo),
      s2.calls.find? (fun c => c.id == id) = some ⟨id, CallKind.verifyRead⟩ →
      currentNameOf info2 ≠ JsVal.str cfg.LOCKED_GROUP_NAME →
      (step cfg s2 later (Ev.readDone id (.success info2))).calls
        = s2.calls.filter (fun c => c.id != id) ++
          [⟨s2.nextCall, CallKind.write cfg.LOCKED_GROUP_NAME cfg.GROUP_THREAD_ID⟩]) ∧
    (∀ (s3 : Sys) (id : Nat) (later : Int) (title threadID : String) (err : Bool),
      s3.calls.find? (fun c => c.id == id) = some ⟨id, CallKind.write title threadID⟩ →
      (step cfg s3 later (Ev.writeDone id err)).g.isProcessing = false) := by
  have hcf : CallsFresh s := by
    rw [hreach]
    exact run_callsFresh cfg evs _ (boot_callsFresh cfg t0)
  have hrun := fun res => run_fire_verify cfg s now t2 h t res hcf hfind hkind
  refine ⟨?_, ?_, ?_, ?_, ?_, ?_, ?_⟩
  · rw [step_fire_correction cfg s now h t hfind hkind]
    exact ⟨rfl, rfl⟩
  · rw [hrun]
    simp [commit, verifyReadCallback, exec, writesOf_append, writesOf]
  · intro info2 hsame
    rw [hrun]
    simp [commit, verifyReadCallback, hsame, exec, writesOf_append, writesOf]
  · intro info2 err hdiff
    have hmid : run cfg s [(now, Ev.timerFire h), (t2, Ev.readDone s.nextCall (.success info2))]
        = { s with
            g := { s.g with isProcessing := true }
            timers := s.timers.filter (fun u => u.handle != h)
            calls := s.calls ++
              [⟨s.nextCall + 1, CallKind.write cfg.LOCKED_GROUP_NAME cfg.GROUP_THREAD_ID⟩]
            nextCall := s.nextCall + 1 + 1
            trace := s.trace ++ [Action.getThreadInfo cfg.GROUP_THREAD_ID ReadKind.verifyRead] ++
              [Action.log (LogMsg.resetting (currentNameOf info2))] ++
              [Action.setTitle cfg.LOCKED_GROUP_NAME cfg.GROUP_THREAD_ID] } := by
      rw [hrun]
      simp [commit, verifyReadCallback, hdiff, exec, safeSetTitle]
    have hcf1 : ∀ c ∈ s.calls, c.id < s.nextCall + 1 := fun c hc => Nat.lt_succ_of_lt (hcf c hc)
    have hfin : run cfg s [(now, Ev.timerFire h), (t2, Ev.readDone s.nextCall (.success info2)),
          (t3, Ev.writeDone (s.nextCall + 1) err)]
        = step cfg (run cfg s [(now, Ev.timerFire h),
            (t2, Ev.readDone s.nextCall (.success info2))]) t3
            (Ev.writeDone (s.nextCall + 1) err) := by
      simp only [run]
    refine ⟨?_, ?_, ?_, ?_, ?_⟩
    · rw [hmid]
    · rw [hmid]
    · rw [hfin, hmid,
        step_write cfg _ t3 (s.nextCall + 1) cfg.LOCKED_GROUP_NAME cfg.GROUP_THREAD_ID err
          (find_appended_call s.calls (s.nextCall + 1) _ hcf1)]
      cases err <;> simp [commit, setTitleCallback, exec]
    · rw [hfin, hmid,
        step_write cfg _ t3 (s.nextCall + 1) cfg.LOCKED_GROUP_NAME cfg.GROUP_THREAD_ID err
          (find_appended_call s.calls (s.nextCall + 1) _ hcf1)]
      simp only [filter_appended_call s.calls (s.nextCall + 1) _ hcf1]
      cases err <;> simp [commit, setTitleCallback, exec]
    · rw [hfin, hmid,
        step_write cfg _ t3 (s.nextCall + 1) cfg.LOCKED_GROUP_NAME cfg.GROUP_THREAD_ID err
          (find_appended_call s.calls (s.nextCall + 1) _ hcf1)]
      cases err <;> simp [commit, setTitleCallback, exec, writesOf_append, writesOf]
  · intro s2 id later hcall
    refine ⟨?_, ?_⟩
    · rw [step_verify cfg s2 later id _ hcall]
      simp [commit, verifyReadCallback, exec]
    · intro info2 hsame
      rw [step_verify cfg s2 later id _ hcall]
      simp [commit, verifyReadCallback, hsame, exec]
  · intro s2 id later info2 hcall hdiff
    rw [step_verify cfg s2 later id _ hcall]
    simp [commit, verifyReadCallback, hdiff, exec, safeSetTitle]
  · intro s3 id later title threadID err hcall
    rw [step_write cfg s3 later id title threadID err hcall]
    cases err <;> simp [commit, setTitleCallback, exec]

/-- Correction timer 1 fires at 3100 in `beforeCorrection`; its re-read is call 2
and its write call 3.  The four outcomes: the re-read fails; the re-read shows
"Locked"; the re-read shows "Hacked" and the write succeeds; the write fails. -/
theorem correction_sets_and_clears_flag_witness :
    (beforeCorrection.timers.find? (fun u => u.handle == 1)
        = some ⟨1, 3100, TimerKind.correction⟩ ∧ beforeCorrection.nextCall = 2) ∧
    (step sampleConfig beforeCorrection 3100 (Ev.timerFire 1)).g.isProcessing = true ∧
    (run sampleConfig beforeCorrection [(3100, Ev.timerFire 1),
      (3400, Ev.readDone beforeCorrection.nextCall .failure)]).g.isProcessing = false ∧
    (run sampleConfig beforeCorrection [(3100, Ev.timerFire 1),
      (3400, Ev.readDone beforeCorrection.nextCall
        (.success (some ⟨JsVal.str "Locked", JsVal.undefined⟩)))]).g.isProcessing = false ∧
    (run sampleConfig beforeCorrection [(3100, Ev.timerFire 1),
      (3400, Ev.readDone beforeCorrection.nextCall
        (.success (some ⟨JsVal.str "Hacked", JsVal.undefined⟩))),
      (3600, Ev.writeDone (beforeCorrection.nextCall + 1) false)]).g.isProcessing = false ∧
    (run sampleConfig beforeCorrection [(3100, Ev.timerFire 1),
      (3400, Ev.readDone beforeCorrection.nextCall
        (.success (some ⟨JsVal.str "Hacked", JsVal.undefined⟩))),
      (3600, Ev.writeDone (beforeCorrection.nextCall + 1) true)]).g.isProcessing = false :=
  ⟨by decide,
   (correction_sets_and_clears_flag sampleConfig 1000 (overlapSchedule.take 3) beforeCorrection
      1 ⟨1, 3100, TimerKind.correction⟩ 3100 3400 3600 rfl (by decide) rfl).1.1,
   (correction_sets_and_clears_flag sampleConfig 1000 (overlapSchedule.take 3) beforeCorrection
      1 ⟨1, 3100, TimerKind.correction⟩ 3100 3400 3600 rfl (by decide) rfl).2.1.1,
   ((correction_sets_and_clears_flag sampleConfig 1000 (overlapSchedule.take 3) beforeCorrection
      1 ⟨1, 3100, TimerKind.correction⟩ 3100 3400 3600 rfl (by decide) rfl).2.2.1
      (some ⟨JsVal.str "Locked", JsVal.undefined⟩) (by decide)).1,
   ((correction_sets_and_clears_flag sampleConfig 1000 (overlapSchedule.take 3) beforeCorrection
      1 ⟨1, 3100, TimerKind.correction⟩ 3100 3400 3600 rfl (by decide) rfl).2.2.2.1
      (some ⟨JsVal.str "Hacked", JsVal.undefined⟩) false (by decide)).2.2.1,
   ((correction_sets_and_clears_flag sampleConfig 1000 (overlapSchedule.take 3) beforeCorrection
      1 ⟨1, 3100, TimerKind.correction⟩ 3100 3400 3600 rfl (by decide) rfl).2.2.2.1
      (some ⟨JsVal.str "Hacked", JsVal.undefined⟩) true (by decide)).2.2.1⟩

end NameLocker
